import Mathlib

/-!
Shallow embedding of the Survey Draft Reconciliation & Answer Resolution
Engine of the sde-mcp repository (TypeScript client in the source file
containing `SDElementsClient`).  The pure text-matching logic
(`calculateSimilarity`, `findAnswersByText`) is translated directly; the
stateful survey workflow (`updateProjectSurvey`, `addAnswerToSurveyDraft`)
is embedded by threading an abstract remote-server state `σ` through an
explicit `Server` interface (fetch draft / patch selection / commit), and
recording the sequence of remote calls as a trace of `ApiEvent`s.  A thrown
JavaScript exception that escapes a method is modelled as a `none` result;
a caught exception corresponds to the `Except.error` branches of the
server interface.  JavaScript numbers are modelled as `ℚ` (every value the
similarity code produces is an exact small rational).
-/

namespace SdeMcp

/-! ### Data model (from the source interfaces) -/

/-- One row of the remote draft survey: `SDElementsSurveyAnswer` restricted to
the fields the engine reads (`id`, `question`, `selected`, `valid`; the
optional booleans are modelled with `undefined ↦ false`, matching how the
code uses them in boolean positions). -/
structure SDElementsSurveyAnswer where
  id : String
  question : String
  selected : Bool
  valid : Bool
deriving DecidableEq

/-- `SDElementsSurveyDraft`: the ordered list of draft answers. -/
structure SDElementsSurveyDraft where
  answers : List SDElementsSurveyAnswer
deriving DecidableEq

/-- One catalog entry of the library-answers cache, restricted to the fields
`findAnswersByText` reads. -/
structure LibraryAnswer where
  id : String
  text : String
  display_text : String
deriving DecidableEq

/-- The `matchType` values of an `AnswerMatch` ("none" is represented by the
surrounding `Option`). -/
inductive MatchType where
  | exact : MatchType
  | substr : MatchType
  | fuzzy : MatchType
deriving DecidableEq

/-- `AnswerMatch` from the source (the `question` field is filled from the
catalog entry's `display_text`). -/
structure AnswerMatch where
  id : String
  text : String
  question : String
  matchType : MatchType
  similarity : ℚ
deriving DecidableEq

/-! ### calculateSimilarity -/

/-- Normalization used by `calculateSimilarity`:
`str.toLowerCase().replace(/\s+/g, "")` — lower-case, then remove all
whitespace characters. -/
def normalizeSim (s : String) : List Char :=
  (s.data.map Char.toLower).filter (fun c => !c.isWhitespace)

/-- The overlapping 2-character windows of a character list, in order
(for `l` of length `n ≥ 2` there are `n - 1` of them). -/
def bigrams (l : List Char) : List (Char × Char) :=
  l.zip l.tail

/-- The bigram-consumption loop of `calculateSimilarity`: iterate the second
list's elements in order; each element that is still available in the
(first-list) multiset consumes one occurrence and counts once.  `avail`
models the `bigrams1` count map. -/
def consumeCount : List (Char × Char) → List (Char × Char) → Nat
  | _, [] => 0
  | avail, g :: rest =>
    if g ∈ avail then consumeCount (avail.erase g) rest + 1
    else consumeCount avail rest

/-- `calculateSimilarity` from the source: Sørensen–Dice bigram coefficient
over the normalized strings, with the two early returns of the code
(`s1 === s2 → 1.0`, either normalized length `< 2 → 0.0`). -/
def calculateSimilarity (str1 str2 : String) : ℚ :=
  if normalizeSim str1 = normalizeSim str2 then 1
  else if (normalizeSim str1).length < 2 ∨ (normalizeSim str2).length < 2 then 0
  else
    (2 * (consumeCount (bigrams (normalizeSim str1)) (bigrams (normalizeSim str2)) : ℚ)) /
      ((((normalizeSim str1).length - 1) + ((normalizeSim str2).length - 1) : ℕ) : ℚ)

/-! ### findAnswersByText -/

/-- JavaScript `String.prototype.toLowerCase`, on the character level. -/
def lowerStr (s : String) : String :=
  ⟨s.data.map Char.toLower⟩

/-- JavaScript `hay.includes(needle)`: contiguous-substring containment. -/
def strIncludes (hay needle : String) : Bool :=
  hay.data.tails.any (fun t => needle.data.isPrefixOf t)

/-- One `Map.set` step of building the JS `searchMap`: updating an existing
key keeps its position, a new key is appended (JS Map insertion-order
semantics). -/
def mapSet (m : List (String × String)) (k v : String) : List (String × String) :=
  if m.any (fun p => p.1 == k) then m.map (fun p => if p.1 == k then (k, v) else p)
  else m ++ [(k, v)]

/-- `new Map(searchTexts.map(t => [t.toLowerCase(), t]))`. -/
def buildSearchMap (ts : List String) : List (String × String) :=
  ts.foldl (fun m t => mapSet m (lowerStr t) t) []

/-- Lookup in the `results` record (keys are the original query strings,
values are `AnswerMatch | null`). -/
def lookupRes (m : List (String × Option AnswerMatch)) (k : String) :
    Option (Option AnswerMatch) :=
  (m.find? (fun p => p.1 == k)).map (fun p => p.2)

/-- Assignment `results[k] = v` (replace if present, else append). -/
def setRes (m : List (String × Option AnswerMatch)) (k : String)
    (v : Option AnswerMatch) : List (String × Option AnswerMatch) :=
  if m.any (fun p => p.1 == k) then m.map (fun p => if p.1 == k then (k, v) else p)
  else m ++ [(k, v)]

/-- Truthiness of `results[k]` (a stored `null` is falsy). -/
def hasMatch (m : List (String × Option AnswerMatch)) (k : String) : Bool :=
  match lookupRes m k with
  | some (some _) => true
  | _ => false

/-- Pass 1, inner loop: one catalog item tried against every search-map
entry; exact equality is checked before substring containment, and a query
that already has a match is skipped. -/
def pass1Item (item : LibraryAnswer) (searchMap : List (String × String))
    (acc : List (String × Option AnswerMatch)) : List (String × Option AnswerMatch) :=
  searchMap.foldl
    (fun acc kv =>
      if hasMatch acc kv.2 then acc
      else
        if lowerStr item.text == kv.1 then
          setRes acc kv.2 (some ⟨item.id, item.text, item.display_text, MatchType.exact, 1⟩)
        else if strIncludes (lowerStr item.text) kv.1 then
          setRes acc kv.2 (some ⟨item.id, item.text, item.display_text, MatchType.substr,
            calculateSimilarity kv.1 (lowerStr item.text)⟩)
        else acc)
    acc

/-- Pass 1 over the whole catalog (outer loop over catalog items). -/
def pass1 (cache : List LibraryAnswer) (searchMap : List (String × String)) :
    List (String × Option AnswerMatch) :=
  cache.foldl (fun acc item => pass1Item item searchMap acc) []

/-- One fold step of the pass-2 fuzzy scan over the catalog: keep the first
candidate whose score strictly exceeds the running maximum and meets the
threshold. -/
def fuzzyStep (keyLower : String) (threshold : ℚ)
    (st : Option AnswerMatch × ℚ) (item : LibraryAnswer) : Option AnswerMatch × ℚ :=
  if calculateSimilarity keyLower (lowerStr item.text) > st.2 ∧
      calculateSimilarity keyLower (lowerStr item.text) ≥ threshold then
    (some ⟨item.id, item.text, item.display_text, MatchType.fuzzy,
      calculateSimilarity keyLower (lowerStr item.text)⟩,
      calculateSimilarity keyLower (lowerStr item.text))
  else st

/-- Pass 2, per query: the best fuzzy candidate (or `none`). -/
def fuzzyBest (cache : List LibraryAnswer) (keyLower : String) (threshold : ℚ) :
    Option AnswerMatch :=
  (cache.foldl (fuzzyStep keyLower threshold) (none, 0)).1

/-- Pass 2 over the still-unmatched queries: a query with a (truthy) match is
skipped, otherwise `results[key]` is assigned the fuzzy best. -/
def pass2 (cache : List LibraryAnswer) (threshold : ℚ) (searchTexts : List String)
    (acc : List (String × Option AnswerMatch)) : List (String × Option AnswerMatch) :=
  searchTexts.foldl
    (fun acc key =>
      if hasMatch acc key then acc
      else setRes acc key (fuzzyBest cache (lowerStr key) threshold))
    acc

/-- `findAnswersByText` over an explicitly provided catalog (the cache
loading itself is remote plumbing outside the matching algorithm); returns
the final `results` record as an association list. -/
def findAnswersByText (cache : List LibraryAnswer) (searchTexts : List String)
    (fuzzyThreshold : ℚ) : List (String × Option AnswerMatch) :=
  pass2 cache fuzzyThreshold searchTexts (pass1 cache (buildSearchMap searchTexts))

/-! ### Remote survey API as an abstract stateful collaborator -/

/-- One remote call made by the survey workflow (the project id is fixed for
a whole call, so it is not recorded). -/
inductive ApiEvent where
  | fetch : ApiEvent
  | patchSel : String → Bool → ApiEvent
  | commit : ApiEvent
deriving DecidableEq

/-- The remote draft-survey collaborator, as seen through the three endpoints
the workflow uses: `GET survey/draft/`, `PATCH survey/draft/{id}/` and
`POST survey/draft/` (commit).  `Except.error msg` models a thrown
request error with message `msg`; every call may also advance the abstract
remote state `σ` (which lets one model transient failures and server-side
side effects such as validity recomputation). -/
structure Server (σ : Type) where
  fetchDraft : σ → Except String SDElementsSurveyDraft × σ
  setSelection : σ → String → Bool → Except String Unit × σ
  commitDraft : σ → Except String Unit × σ

/-- `SurveyUpdatePayload` (with the `?? []` / falsy defaults already
applied: `answers_to_deselect` defaults to `[]`, `survey_complete` to
`false`). -/
structure SurveyUpdatePayload where
  answers : List String
  answers_to_deselect : List String
  survey_complete : Bool
deriving DecidableEq

/-- `SurveyUpdateResult` from the source (the opaque `commitResult` payload
is dropped; `draftCommitted` records whether the commit succeeded). -/
structure SurveyUpdateResult where
  success : Bool
  selectedCount : Nat
  deselectedCount : Nat
  targetAnswers : List String
  deselectedAnswers : Option (List String)
  missingAnswers : Option (List String)
  errors : Option (List String)
  draftCommitted : Bool
  commitError : Option String
  note : Option String
deriving DecidableEq

/-- Outcome of one of the two mutation loops of `updateProjectSurvey`. -/
structure LoopOut (σ : Type) where
  state : σ
  count : Nat
  errors : List String
  trace : List ApiEvent

/-- JavaScript `new Set(list)` iteration order: duplicates removed, first
occurrence kept, order preserved. -/
def insertionDedup (l : List String) : List String :=
  l.foldl (fun acc a => if acc.contains a then acc else acc ++ [a]) []

/-- Step 2 of `updateProjectSurvey`: the deselection loop.  The membership
check uses the draft fetched once at the start (`draft0`); a failed PATCH
records a per-item error and the loop continues. -/
def deselectLoop {σ : Type} (srv : Server σ) (draft0 : SDElementsSurveyDraft) :
    List String → σ → LoopOut σ
  | [], s => ⟨s, 0, [], []⟩
  | id :: rest, s =>
    match draft0.answers.find? (fun a => a.id == id && a.selected) with
    | some _ =>
      match srv.setSelection s id false with
      | (Except.ok _, s₁) =>
        let r := deselectLoop srv draft0 rest s₁
        ⟨r.state, r.count + 1, r.errors, ApiEvent.patchSel id false :: r.trace⟩
      | (Except.error msg, s₁) =>
        let r := deselectLoop srv draft0 rest s₁
        ⟨r.state, r.count, ("Failed to deselect " ++ id ++ ": " ++ msg) :: r.errors,
          ApiEvent.patchSel id false :: r.trace⟩
    | none => deselectLoop srv draft0 rest s

/-- Step 3 of `updateProjectSurvey`: the selection loop.  The draft is
re-fetched immediately before acting on each id; a failed re-fetch records
a per-item error and skips that id; an id that is absent or already
selected causes no mutation; a failed PATCH records a per-item error and
the loop continues. -/
def selectLoop {σ : Type} (srv : Server σ) : List String → σ → LoopOut σ
  | [], s => ⟨s, 0, [], []⟩
  | id :: rest, s =>
    match srv.fetchDraft s with
    | (Except.error msg, s₁) =>
      let r := selectLoop srv rest s₁
      ⟨r.state, r.count, ("Draft refresh failed: " ++ msg) :: r.errors,
        ApiEvent.fetch :: r.trace⟩
    | (Except.ok draft, s₁) =>
      match draft.answers.find? (fun a => a.id == id) with
      | some a =>
        if !a.selected then
          match srv.setSelection s₁ id true with
          | (Except.ok _, s₂) =>
            let r := selectLoop srv rest s₂
            ⟨r.state, r.count + 1, r.errors,
              ApiEvent.fetch :: ApiEvent.patchSel id true :: r.trace⟩
          | (Except.error msg, s₂) =>
            let r := selectLoop srv rest s₂
            ⟨r.state, r.count, ("Failed to select " ++ id ++ ": " ++ msg) :: r.errors,
              ApiEvent.fetch :: ApiEvent.patchSel id true :: r.trace⟩
        else
          let r := selectLoop srv rest s₁
          ⟨r.state, r.count, r.errors, ApiEvent.fetch :: r.trace⟩
      | none =>
        let r := selectLoop srv rest s₁
        ⟨r.state, r.count, r.errors, ApiEvent.fetch :: r.trace⟩

/-- Combined outcome of steps 1–3 of `updateProjectSurvey`. -/
structure PhasesOut (σ : Type) where
  state : σ
  deselectedCount : Nat
  selectedCount : Nat
  errors : List String
  trace : List ApiEvent

/-- Step 1 of `updateProjectSurvey`: the initially fetched draft, with a
fetch failure caught and replaced by the empty draft `{answers: []}`. -/
def initialDraft {σ : Type} (srv : Server σ) (s : σ) : SDElementsSurveyDraft :=
  match (srv.fetchDraft s).1 with
  | Except.ok d => d
  | Except.error _ => ⟨[]⟩

/-- The deselection phase, run from the server state after the initial
fetch, over the deduplicated `answers_to_deselect`. -/
def phaseDeselect {σ : Type} (srv : Server σ) (payload : SurveyUpdatePayload) (s : σ) :
    LoopOut σ :=
  deselectLoop srv (initialDraft srv s) (insertionDedup payload.answers_to_deselect)
    (srv.fetchDraft s).2

/-- The selection phase, run from the server state after the deselection
phase, over the deduplicated `answers`. -/
def phaseSelect {σ : Type} (srv : Server σ) (payload : SurveyUpdatePayload) (s : σ) :
    LoopOut σ :=
  selectLoop srv (insertionDedup payload.answers) (phaseDeselect srv payload s).state

/-- Steps 1–3 of `updateProjectSurvey`: initial fetch, deselection loop,
then selection loop. -/
def reconPhases {σ : Type} (srv : Server σ) (payload : SurveyUpdatePayload) (s : σ) :
    PhasesOut σ :=
  ⟨(phaseSelect srv payload s).state, (phaseDeselect srv payload s).count,
    (phaseSelect srv payload s).count,
    (phaseDeselect srv payload s).errors ++ (phaseSelect srv payload s).errors,
    ApiEvent.fetch :: ((phaseDeselect srv payload s).trace ++ (phaseSelect srv payload s).trace)⟩

/-- The ids marked `selected` in a draft. -/
def selectedIdsOf (d : SDElementsSurveyDraft) : List String :=
  (d.answers.filter (fun a => a.selected)).map (fun a => a.id)

/-- `missingAnswers` computation of step 4: the target ids not selected in
the given (finally fetched) draft. -/
def missingOf (targetIds : List String) (d : SDElementsSurveyDraft) : List String :=
  targetIds.filter (fun id => !(selectedIdsOf d).contains id)

/-- `updateProjectSurvey` from the source.  Returns the full trace of remote
calls together with `none` when the call throws (which only the final
verification fetch can cause) or `some (result, finalState)` otherwise. -/
def updateProjectSurvey {σ : Type} (srv : Server σ) (payload : SurveyUpdatePayload)
    (s : σ) : List ApiEvent × Option (SurveyUpdateResult × σ) :=
  let ph := reconPhases srv payload s
  let targetIds := insertionDedup payload.answers
  let deselectIds := insertionDedup payload.answers_to_deselect
  match srv.fetchDraft ph.state with
  | (Except.error _, _) => (ph.trace ++ [ApiEvent.fetch], none)
  | (Except.ok finalDraft, s₄) =>
    let missing := missingOf targetIds finalDraft
    let base : SurveyUpdateResult :=
      { success := true
        selectedCount := ph.selectedCount
        deselectedCount := ph.deselectedCount
        targetAnswers := targetIds
        deselectedAnswers := if deselectIds.isEmpty then none else some deselectIds
        missingAnswers := if missing.isEmpty then none else some missing
        errors := if ph.errors.isEmpty then none else some ph.errors
        draftCommitted := false
        commitError := none
        note := none }
    if payload.survey_complete then
      match srv.commitDraft s₄ with
      | (Except.ok _, s₅) =>
        (ph.trace ++ [ApiEvent.fetch, ApiEvent.commit],
          some ({ base with draftCommitted := true }, s₅))
      | (Except.error msg, s₅) =>
        (ph.trace ++ [ApiEvent.fetch, ApiEvent.commit],
          some ({ base with commitError := some msg }, s₅))
    else
      (ph.trace ++ [ApiEvent.fetch],
        some ({ base with note := some "Draft updated. Call commit to finalize." }, s₄))

/-! ### addAnswerToSurveyDraft (the dependency resolver) -/

/-- Result record of `addAnswerToSurveyDraft` (success paths only; a throw is
the surrounding `none`). -/
structure AddResult where
  success : Bool
  dependenciesAdded : Option (List String)
  message : Option String
deriving DecidableEq

/-- The sibling-activation loop of `addAnswerToSurveyDraft`: try each
potential prerequisite in catalog order; a failed call anywhere in the
try-block (prerequisite PATCH, re-fetch, or the final target PATCH) is
caught and the loop continues with the next prerequisite; `dependenciesAdded`
keeps every successfully selected prerequisite.  Returns `none` when the
loop is exhausted (the caller then throws). -/
def prereqLoop {σ : Type} (srv : Server σ) (answerId : String) :
    List SDElementsSurveyAnswer → List String → σ → σ × List ApiEvent × Option AddResult
  | [], _, s => (s, [], none)
  | p :: rest, deps, s =>
    match srv.setSelection s p.id true with
    | (Except.error _, s₁) =>
      let r := prereqLoop srv answerId rest deps s₁
      (r.1, ApiEvent.patchSel p.id true :: r.2.1, r.2.2)
    | (Except.ok _, s₁) =>
      match srv.fetchDraft s₁ with
      | (Except.error _, s₂) =>
        let r := prereqLoop srv answerId rest (deps ++ [p.id]) s₂
        (r.1, ApiEvent.patchSel p.id true :: ApiEvent.fetch :: r.2.1, r.2.2)
      | (Except.ok d, s₂) =>
        match d.answers.find? (fun a => a.id == answerId) with
        | some t =>
          if t.valid then
            match srv.setSelection s₂ answerId true with
            | (Except.ok _, s₃) =>
              (s₃, [ApiEvent.patchSel p.id true, ApiEvent.fetch,
                    ApiEvent.patchSel answerId true],
                some ⟨true, some (deps ++ [p.id]), some "Resolved dependencies"⟩)
            | (Except.error _, s₃) =>
              let r := prereqLoop srv answerId rest (deps ++ [p.id]) s₃
              (r.1, ApiEvent.patchSel p.id true :: ApiEvent.fetch ::
                ApiEvent.patchSel answerId true :: r.2.1, r.2.2)
          else
            let r := prereqLoop srv answerId rest (deps ++ [p.id]) s₂
            (r.1, ApiEvent.patchSel p.id true :: ApiEvent.fetch :: r.2.1, r.2.2)
        | none =>
          let r := prereqLoop srv answerId rest (deps ++ [p.id]) s₂
          (r.1, ApiEvent.patchSel p.id true :: ApiEvent.fetch :: r.2.1, r.2.2)

/-- `addAnswerToSurveyDraft` from the source: fetch the draft (uncaught), no-op
if the target is already selected, run the sibling-activation loop if the
target is invalid (throwing when it cannot be resolved), otherwise select
the target directly (uncaught). -/
def addAnswerToSurveyDraft {σ : Type} (srv : Server σ) (answerId : String)
    (autoResolve : Bool) (s : σ) : List ApiEvent × Option (AddResult × σ) :=
  match srv.fetchDraft s with
  | (Except.error _, _) => ([ApiEvent.fetch], none)
  | (Except.ok draft, s₁) =>
    match draft.answers.find? (fun a => a.id == answerId) with
    | none => ([ApiEvent.fetch], none)
    | some target =>
      if target.selected then
        ([ApiEvent.fetch], some (⟨true, none, some "Already selected"⟩, s₁))
      else if !target.valid then
        if !autoResolve then ([ApiEvent.fetch], none)
        else
          let prereqs := draft.answers.filter
            (fun a => a.valid && !a.selected && a.question == target.question)
          let r := prereqLoop srv answerId prereqs [] s₁
          match r.2.2 with
          | some res => (ApiEvent.fetch :: r.2.1, some (res, r.1))
          | none => (ApiEvent.fetch :: r.2.1, none)
      else
        match srv.setSelection s₁ answerId true with
        | (Except.ok _, s₂) =>
          ([ApiEvent.fetch, ApiEvent.patchSel answerId true], some (⟨true, none, none⟩, s₂))
        | (Except.error _, _) =>
          ([ApiEvent.fetch, ApiEvent.patchSel answerId true], none)

/-! ### Concrete remote-server models for scenarios -/

/-- Apply a PATCH `{selected: b}` to a draft held as server state. -/
def setSel (d : SDElementsSurveyDraft) (id : String) (b : Bool) : SDElementsSurveyDraft :=
  ⟨d.answers.map (fun a => if a.id == id then { a with selected := b } else a)⟩

/-- A deterministic remote server whose state is the draft itself: fetch
always succeeds and returns the state; a selection PATCH fails for an
unknown id and for selecting an invalid answer, and otherwise applies the
selection followed by the server-side validity recomputation `rule`;
commit succeeds. -/
def mkServer (rule : SDElementsSurveyDraft → SDElementsSurveyDraft) :
    Server SDElementsSurveyDraft where
  fetchDraft s := (Except.ok s, s)
  setSelection s id b :=
    match s.answers.find? (fun a => a.id == id) with
    | none => (Except.error "not found", s)
    | some a =>
      if b && !a.valid then (Except.error "invalid answer", s)
      else (Except.ok (), rule (setSel s id b))
  commitDraft s := (Except.ok (), s)

/-- Server with no validity side effects. -/
def plainServer : Server SDElementsSurveyDraft := mkServer (fun d => d)

/-- Validity rule of the dependency scenario: answer `X` is valid exactly
when answer `Y` is selected. -/
def depRule (d : SDElementsSurveyDraft) : SDElementsSurveyDraft :=
  ⟨d.answers.map (fun a =>
    if a.id == "X" then
      { a with valid := d.answers.any (fun b => b.id == "Y" && b.selected) }
    else a)⟩

/-- Server whose selection mutations silently no-op: every PATCH reports
success but the draft never changes. -/
def noopServer : Server SDElementsSurveyDraft where
  fetchDraft s := (Except.ok s, s)
  setSelection s _ _ := (Except.ok (), s)
  commitDraft s := (Except.ok (), s)

/-- Server over a call counter whose first draft fetch fails (a transient
timeout) while every later fetch returns the fixed draft `d`. -/
def flakyFetchServer (d : SDElementsSurveyDraft) : Server Nat where
  fetchDraft n := (if n == 0 then Except.error "timeout" else Except.ok d, n + 1)
  setSelection n _ _ := (Except.ok (), n)
  commitDraft n := (Except.ok (), n)

/-- Server like `plainServer` but whose commit (publish) always fails. -/
def failCommitServer : Server SDElementsSurveyDraft :=
  { plainServer with commitDraft := fun s => (Except.error "publish failed", s) }

/-- The dependency-scenario draft of the spec: `X` unselected and invalid,
`Y` an unselected, valid sibling on the same question. -/
def depDraft : SDElementsSurveyDraft :=
  ⟨[⟨"X", "Q1", false, false⟩, ⟨"Y", "Q1", false, true⟩]⟩

/-! ### Concrete scenario inputs and expected outputs -/

/-- The default fuzzy threshold `0.75`, given in already-reduced form so the
rational comparisons of the fuzzy pass evaluate by kernel reduction. -/
def threshold75 : ℚ := ⟨3, 4, by norm_num, by norm_num⟩

/-- Projection of a lookup result onto its non-numeric fields, so concrete
match results can be compared without normalizing the stored similarity
ratio. -/
def matchView (r : Option (Option AnswerMatch)) :
    Option (Option (String × String × String × MatchType)) :=
  r.map (fun o => o.map (fun m => (m.id, m.text, m.question, m.matchType)))

/-- Request selecting only `X`, no deselections, no commit. -/
def pSelX : SurveyUpdatePayload := ⟨["X"], [], false⟩

/-- The result `updateProjectSurvey` produces for `pSelX` on `depDraft`
against `plainServer` (where selecting the invalid `X` is rejected). -/
def rSelX : SurveyUpdateResult :=
  { success := true, selectedCount := 0, deselectedCount := 0,
    targetAnswers := ["X"], deselectedAnswers := none,
    missingAnswers := some ["X"],
    errors := some ["Failed to select X: invalid answer"],
    draftCommitted := false, commitError := none,
    note := some "Draft updated. Call commit to finalize." }

/-- The draft after the dependency-resolution scenario: both `Y` and `X`
selected and valid. -/
def depFinal : SDElementsSurveyDraft :=
  ⟨[⟨"X", "Q1", true, true⟩, ⟨"Y", "Q1", true, true⟩]⟩

/-- Single unselected, valid answer `X` (used with `noopServer`). -/
def noopDraft : SDElementsSurveyDraft := ⟨[⟨"X", "Q1", false, true⟩]⟩

/-- The result of `pSelX` against `noopServer` on `noopDraft`: the PATCH
"succeeds" (so `selectedCount` is 1) but the final fetch still shows `X`
unselected, so `X` is reported missing. -/
def rNoop : SurveyUpdateResult :=
  { success := true, selectedCount := 1, deselectedCount := 0,
    targetAnswers := ["X"], deselectedAnswers := none,
    missingAnswers := some ["X"], errors := none,
    draftCommitted := false, commitError := none,
    note := some "Draft updated. Call commit to finalize." }

/-- Draft with `Z` selected (used with `flakyFetchServer`). -/
def dZ : SDElementsSurveyDraft := ⟨[⟨"Z", "Q1", true, true⟩]⟩

/-- Request deselecting only `Z`, no selections, no commit. -/
def pDeselZ : SurveyUpdatePayload := ⟨[], ["Z"], false⟩

/-- Result of `pDeselZ` against `flakyFetchServer dZ` from counter state 0:
the failed initial fetch is replaced by the empty draft, so the deselection
is silently skipped and the call still completes. -/
def rFlaky : SurveyUpdateResult :=
  { success := true, selectedCount := 0, deselectedCount := 0,
    targetAnswers := [], deselectedAnswers := some ["Z"],
    missingAnswers := none, errors := none,
    draftCommitted := false, commitError := none,
    note := some "Draft updated. Call commit to finalize." }

/-- Catalog whose first entry contains the query as a proper substring while
its second entry equals the query exactly. -/
def catSubstrFirst : List LibraryAnswer :=
  [⟨"A1", "pythonista", "Q"⟩, ⟨"A2", "python", "Q"⟩]

/-- The catalog of the spec scenario: Python and Java. -/
def catSpec : List LibraryAnswer := [⟨"A1", "Python", "Q"⟩, ⟨"A2", "Java", "Q"⟩]

/-- One-entry catalog whose text differs from the query only in whitespace. -/
def catWs : List LibraryAnswer := [⟨"A1", "python", "Q"⟩]

/-- Draft with `W` already selected. -/
def wDraft : SDElementsSurveyDraft := ⟨[⟨"W", "Q1", true, true⟩]⟩

/-- Request selecting only `W`, no deselections, no commit. -/
def pSelW : SurveyUpdatePayload := ⟨["W"], [], false⟩

/-- Result of `pSelW` on `wDraft` (already selected: skip, no mutation). -/
def rSelW : SurveyUpdateResult :=
  { success := true, selectedCount := 0, deselectedCount := 0,
    targetAnswers := ["W"], deselectedAnswers := none,
    missingAnswers := none, errors := none,
    draftCommitted := false, commitError := none,
    note := some "Draft updated. Call commit to finalize." }

/-- Draft with `Z` present but not selected. -/
def zDraftUnsel : SDElementsSurveyDraft := ⟨[⟨"Z", "Q1", false, true⟩]⟩

/-- Result of `pDeselZ` on `zDraftUnsel` (not selected: skip, no mutation). -/
def rDeselZ : SurveyUpdateResult :=
  { success := true, selectedCount := 0, deselectedCount := 0,
    targetAnswers := [], deselectedAnswers := some ["Z"],
    missingAnswers := none, errors := none,
    draftCommitted := false, commitError := none,
    note := some "Draft updated. Call commit to finalize." }

/-- Server over a call counter paired with a draft: the second draft fetch of
a run (the per-id refresh of the first select target) fails with a timeout,
every other fetch succeeds; selection PATCHes always succeed. -/
def refreshFlakyServer : Server (Nat × SDElementsSurveyDraft) where
  fetchDraft s :=
    (if s.1 == 1 then Except.error "timeout" else Except.ok s.2, (s.1 + 1, s.2))
  setSelection s id b := (Except.ok (), (s.1, setSel s.2 id b))
  commitDraft s := (Except.ok (), s)

/-- Draft with two unselected valid answers `X` and `W`. -/
def dXW : SDElementsSurveyDraft :=
  ⟨[⟨"X", "Q1", false, true⟩, ⟨"W", "Q1", false, true⟩]⟩

/-- `dXW` after `W` has been selected. -/
def dXWFinal : SDElementsSurveyDraft :=
  ⟨[⟨"X", "Q1", false, true⟩, ⟨"W", "Q1", true, true⟩]⟩

/-- Request selecting `X` then `W`, no deselections, no commit. -/
def pXW : SurveyUpdatePayload := ⟨["X", "W"], [], false⟩

/-- Result of `pXW` against `refreshFlakyServer` from `(0, dXW)`: the
refresh before `X` fails so only that id is skipped (with a per-item
error); `W` is still processed and selected. -/
def rRefreshSkip : SurveyUpdateResult :=
  { success := true, selectedCount := 1, deselectedCount := 0,
    targetAnswers := ["X", "W"], deselectedAnswers := none,
    missingAnswers := some ["X"],
    errors := some ["Draft refresh failed: timeout"],
    draftCommitted := false, commitError := none,
    note := some "Draft updated. Call commit to finalize." }

/-- Request selecting `X` and committing. -/
def pSelXCommit : SurveyUpdatePayload := ⟨["X"], [], true⟩

/-- Result of `pSelXCommit` on `depDraft` against `failCommitServer`: the
per-item selection failure and the commit failure are both recorded,
independently. -/
def rFailCommit : SurveyUpdateResult :=
  { success := true, selectedCount := 0, deselectedCount := 0,
    targetAnswers := ["X"], deselectedAnswers := none,
    missingAnswers := some ["X"],
    errors := some ["Failed to select X: invalid answer"],
    draftCommitted := false, commitError := some "publish failed",
    note := none }


/-! ### Helper lemmas -/


lemma mem_foldl_dedup (l : List String) (acc : List String) (x : String)
    (hx : x ∈ l.foldl (fun acc a => if acc.contains a then acc else acc ++ [a]) acc) :
    x ∈ acc ∨ x ∈ l := by
  induction l generalizing acc with
  | nil => exact Or.inl hx
  | cons a rest ih =>
    simp only [List.foldl_cons] at hx
    rcases ih _ hx with h | h
    · by_cases hc : acc.contains a = true
      · rw [if_pos hc] at h
        exact Or.inl h
      · rw [if_neg hc] at h
        rcases List.mem_append.1 h with h | h
        · exact Or.inl h
        · simp only [List.mem_singleton] at h
          subst h
          exact Or.inr (List.mem_cons_self _ _)
    · exact Or.inr (List.mem_cons_of_mem _ h)

lemma mem_insertionDedup {x : String} {l : List String}
    (h : x ∈ insertionDedup l) : x ∈ l := by
  rcases mem_foldl_dedup l [] x h with h | h
  · simp at h
  · exact h

lemma deselectLoop_trace_events {σ : Type} (srv : Server σ)
    (d0 : SDElementsSurveyDraft) (ids : List String) (s : σ) :
    ∀ e ∈ (deselectLoop srv d0 ids s).trace,
      ∃ i, i ∈ ids ∧ e = ApiEvent.patchSel i false := by
  induction ids generalizing s with
  | nil => intro e he; simp [deselectLoop] at he
  | cons a rest ih =>
    intro e he
    simp only [deselectLoop] at he
    split at he
    · split at he
      · simp only [List.mem_cons] at he
        rcases he with he | he
        · exact ⟨a, List.mem_cons_self _ _, he⟩
        · rcases ih _ _ he with ⟨i, hi, hie⟩
          exact ⟨i, List.mem_cons_of_mem _ hi, hie⟩
      · simp only [List.mem_cons] at he
        rcases he with he | he
        · exact ⟨a, List.mem_cons_self _ _, he⟩
        · rcases ih _ _ he with ⟨i, hi, hie⟩
          exact ⟨i, List.mem_cons_of_mem _ hi, hie⟩
    · rcases ih _ _ he with ⟨i, hi, hie⟩
      exact ⟨i, List.mem_cons_of_mem _ hi, hie⟩

lemma selectLoop_trace_events {σ : Type} (srv : Server σ) (ids : List String) (s : σ) :
    ∀ e ∈ (selectLoop srv ids s).trace,
      e = ApiEvent.fetch ∨ ∃ i, i ∈ ids ∧ e = ApiEvent.patchSel i true := by
  induction ids generalizing s with
  | nil => intro e he; simp [selectLoop] at he
  | cons a rest ih =>
    intro e he
    simp only [selectLoop] at he
    split at he
    · simp only [List.mem_cons] at he
      rcases he with he | he
      · exact Or.inl he
      · rcases ih _ _ he with h | ⟨i, hi, hie⟩
        · exact Or.inl h
        · exact Or.inr ⟨i, List.mem_cons_of_mem _ hi, hie⟩
    · split at he
      · split at he
        · split at he
          · simp only [List.mem_cons] at he
            rcases he with he | he
            · exact Or.inl he
            · rcases he with he | he
              · exact Or.inr ⟨a, List.mem_cons_self _ _, he⟩
              · rcases ih _ _ he with h | ⟨i, hi, hie⟩
                · exact Or.inl h
                · exact Or.inr ⟨i, List.mem_cons_of_mem _ hi, hie⟩
          · simp only [List.mem_cons] at he
            rcases he with he | he
            · exact Or.inl he
            · rcases he with he | he
              · exact Or.inr ⟨a, List.mem_cons_self _ _, he⟩
              · rcases ih _ _ he with h | ⟨i, hi, hie⟩
                · exact Or.inl h
                · exact Or.inr ⟨i, List.mem_cons_of_mem _ hi, hie⟩
        · simp only [List.mem_cons] at he
          rcases he with he | he
          · exact Or.inl he
          · rcases ih _ _ he with h | ⟨i, hi, hie⟩
            · exact Or.inl h
            · exact Or.inr ⟨i, List.mem_cons_of_mem _ hi, hie⟩
      · simp only [List.mem_cons] at he
        rcases he with he | he
        · exact Or.inl he
        · rcases ih _ _ he with h | ⟨i, hi, hie⟩
          · exact Or.inl h
          · exact Or.inr ⟨i, List.mem_cons_of_mem _ hi, hie⟩

lemma updateProjectSurvey_trace {σ : Type} (srv : Server σ) (p : SurveyUpdatePayload)
    (s : σ) :
    (updateProjectSurvey srv p s).1 = (reconPhases srv p s).trace ++ [ApiEvent.fetch] ∨
    (updateProjectSurvey srv p s).1 =
      (reconPhases srv p s).trace ++ [ApiEvent.fetch, ApiEvent.commit] := by
  unfold updateProjectSurvey
  rcases hf : srv.fetchDraft (reconPhases srv p s).state with ⟨res, s₄⟩
  cases res with
  | error msg => simp [hf]
  | ok d =>
    by_cases hc : p.survey_complete = true
    · rcases hcm : srv.commitDraft s₄ with ⟨cres, s₅⟩
      cases cres with
      | ok u => simp [hf, hc, hcm]
      | error msg => simp [hf, hc, hcm]
    · simp [hf, hc]

lemma reconPhases_trace {σ : Type} (srv : Server σ) (p : SurveyUpdatePayload) (s : σ) :
    (reconPhases srv p s).trace =
      ApiEvent.fetch :: ((phaseDeselect srv p s).trace ++ (phaseSelect srv p s).trace) :=
  rfl

lemma mem_reconPhases_trace {σ : Type} {srv : Server σ} {p : SurveyUpdatePayload}
    {s : σ} {e : ApiEvent} (he : e ∈ (reconPhases srv p s).trace) :
    e = ApiEvent.fetch ∨
      (∃ i, i ∈ p.answers_to_deselect ∧ e = ApiEvent.patchSel i false) ∨
      (∃ i, i ∈ p.answers ∧ e = ApiEvent.patchSel i true) := by
  rw [reconPhases_trace] at he
  rcases List.mem_cons.1 he with he | he
  · exact Or.inl he
  rcases List.mem_append.1 he with he | he
  · rcases deselectLoop_trace_events _ _ _ _ _ he with ⟨i, hi, hie⟩
    exact Or.inr (Or.inl ⟨i, mem_insertionDedup hi, hie⟩)
  · rcases selectLoop_trace_events _ _ _ _ he with h | ⟨i, hi, hie⟩
    · exact Or.inl h
    · exact Or.inr (Or.inr ⟨i, mem_insertionDedup hi, hie⟩)

lemma updateProjectSurvey_patch_frame {σ : Type} (srv : Server σ)
    (p : SurveyUpdatePayload) (s : σ) (i : String) (b : Bool)
    (h : ApiEvent.patchSel i b ∈ (updateProjectSurvey srv p s).1) :
    i ∈ p.answers ∨ i ∈ p.answers_to_deselect := by
  have hph : ApiEvent.patchSel i b ∈ (reconPhases srv p s).trace := by
    rcases updateProjectSurvey_trace srv p s with ht | ht
    · rw [ht] at h
      rcases List.mem_append.1 h with h | h
      · exact h
      · simp at h
    · rw [ht] at h
      rcases List.mem_append.1 h with h | h
      · exact h
      · simp at h
  rcases mem_reconPhases_trace hph with h0 | ⟨i', hi', he⟩ | ⟨i', hi', he⟩
  · exact absurd h0 (by simp)
  · cases he
    exact Or.inr hi'
  · cases he
    exact Or.inl hi'

lemma updateProjectSurvey_no_commit {σ : Type} (srv : Server σ)
    (p : SurveyUpdatePayload) (s : σ) (hc : p.survey_complete = false) :
    ApiEvent.commit ∉ (updateProjectSurvey srv p s).1 := by
  intro h
  have ht : (updateProjectSurvey srv p s).1 = (reconPhases srv p s).trace ++ [ApiEvent.fetch] := by
    unfold updateProjectSurvey
    rcases hf : srv.fetchDraft (reconPhases srv p s).state with ⟨res, s₄⟩
    cases res with
    | error msg => simp [hf]
    | ok d => simp [hf, hc]
  rw [ht] at h
  rcases List.mem_append.1 h with h | h
  · rcases mem_reconPhases_trace h with h0 | ⟨i, _, he⟩ | ⟨i, _, he⟩ <;> simp_all
  · simp at h



lemma inter_cons_right_of_mem {α : Type} [DecidableEq α] {g : α} (s t : Multiset α)
    (h : g ∈ s) : s ∩ (g ::ₘ t) = g ::ₘ (s.erase g ∩ t) := by
  rw [Multiset.ext]
  intro x
  by_cases hx : x = g
  · subst hx
    rw [Multiset.count_inter, Multiset.count_cons_self, Multiset.count_cons_self,
      Multiset.count_inter, Multiset.count_erase_self]
    have h1 : 1 ≤ Multiset.count x s := Multiset.one_le_count_iff_mem.2 h
    omega
  · rw [Multiset.count_inter, Multiset.count_cons_of_ne hx, Multiset.count_cons_of_ne hx,
      Multiset.count_inter, Multiset.count_erase_of_ne hx]

lemma inter_cons_right_of_not_mem {α : Type} [DecidableEq α] {g : α} (s t : Multiset α)
    (h : g ∉ s) : s ∩ (g ::ₘ t) = s ∩ t := by
  rw [Multiset.ext]
  intro x
  by_cases hx : x = g
  · subst hx
    rw [Multiset.count_inter, Multiset.count_inter, Multiset.count_eq_zero_of_not_mem h]
    simp
  · rw [Multiset.count_inter, Multiset.count_cons_of_ne hx, Multiset.count_inter]

lemma coe_erase_pair (l : List (Char × Char)) (g : Char × Char) :
    ((l.erase g : List (Char × Char)) : Multiset (Char × Char)) =
      (l : Multiset (Char × Char)).erase g := by
  induction l with
  | nil => rfl
  | cons a rest ih =>
    by_cases h : a = g
    · subst h
      rw [List.erase_cons_head]
      exact (Multiset.erase_cons_head a (rest : Multiset (Char × Char))).symm
    · rw [List.erase_cons_tail (not_beq_of_ne h)]
      have hc : ((a :: rest.erase g : List (Char × Char)) : Multiset (Char × Char)) =
          a ::ₘ ((rest.erase g : List (Char × Char)) : Multiset (Char × Char)) := rfl
      rw [hc, ih]
      exact (Multiset.erase_cons_tail _ h).symm

lemma consumeCount_eq_card_inter (l avail : List (Char × Char)) :
    consumeCount avail l =
      Multiset.card ((avail : Multiset (Char × Char)) ∩ (l : Multiset (Char × Char))) := by
  induction l generalizing avail with
  | nil => simp [consumeCount]
  | cons g rest ih =>
    have hco : ((g :: rest : List (Char × Char)) : Multiset (Char × Char)) =
        g ::ₘ (rest : Multiset (Char × Char)) := rfl
    by_cases hg : g ∈ avail
    · have hgm : g ∈ (avail : Multiset (Char × Char)) := Multiset.mem_coe.2 hg
      rw [hco, inter_cons_right_of_mem _ _ hgm, Multiset.card_cons]
      simp only [consumeCount, if_pos hg, ih]
      rw [coe_erase_pair]
    · have hgm : g ∉ (avail : Multiset (Char × Char)) := fun hc => hg (Multiset.mem_coe.1 hc)
      rw [hco, inter_cons_right_of_not_mem _ _ hgm]
      simp only [consumeCount, if_neg hg, ih]

lemma consumeCount_comm (a b : List (Char × Char)) :
    consumeCount a b = consumeCount b a := by
  rw [consumeCount_eq_card_inter, consumeCount_eq_card_inter, Multiset.inter_comm]

lemma similarity_symm (a b : String) :
    calculateSimilarity a b = calculateSimilarity b a := by
  unfold calculateSimilarity
  by_cases h : normalizeSim a = normalizeSim b
  · rw [if_pos h, if_pos h.symm]
  · rw [if_neg h, if_neg (Ne.symm h)]
    by_cases hl : (normalizeSim a).length < 2 ∨ (normalizeSim b).length < 2
    · rw [if_pos hl, if_pos (Or.symm hl)]
    · rw [if_neg hl, if_neg (fun hc => hl (Or.symm hc))]
      rw [consumeCount_comm, Nat.add_comm]

lemma similarity_refl (s : String) : calculateSimilarity s s = 1 := by
  unfold calculateSimilarity
  rw [if_pos rfl]

/- pass-1 assignments survive pass 2 -/
lemma find?_map_update (m : List (String × Option AnswerMatch)) (k k' : String)
    (v : Option AnswerMatch) (h : k' ≠ k) :
    (m.map (fun p => if p.1 == k' then (k', v) else p)).find? (fun p => p.1 == k) =
      m.find? (fun p => p.1 == k) := by
  induction m with
  | nil => rfl
  | cons q rest ih =>
    by_cases hq : q.1 = k'
    · simp only [List.map_cons, List.find?_cons]
      rw [if_pos (by simp [hq])]
      have hk : (k' == k) = false := by simp [h]
      have hqk : (q.1 == k) = false := by simp [hq, h]
      simp only [hk, hqk, cond_false]
      exact ih
    · simp only [List.map_cons, List.find?_cons]
      rw [if_neg (by simp [hq])]
      by_cases hqk : q.1 = k
      · simp [hqk]
      · simp only [show (q.1 == k) = false by simp [hqk], cond_false]
        exact ih

lemma lookupRes_setRes_ne (m : List (String × Option AnswerMatch)) (k k' : String)
    (v : Option AnswerMatch) (h : k' ≠ k) :
    lookupRes (setRes m k' v) k = lookupRes m k := by
  unfold lookupRes setRes
  split
  · rw [find?_map_update m k k' v h]
  · rw [List.find?_append]
    have hk : (k' == k) = false := by simp [h]
    have : ([(k', v)].find? (fun p => p.1 == k)) = none := by
      simp only [List.find?, hk]
    rw [this]
    cases m.find? (fun p => p.1 == k) <;> rfl

lemma hasMatch_of_lookup {m : List (String × Option AnswerMatch)} {k : String}
    {x : AnswerMatch} (h : lookupRes m k = some (some x)) : hasMatch m k = true := by
  unfold hasMatch
  rw [h]

lemma pass2_preserves (cache : List LibraryAnswer) (threshold : ℚ)
    (ts : List String) (acc : List (String × Option AnswerMatch)) (k : String)
    (x : AnswerMatch) (h : lookupRes acc k = some (some x)) :
    lookupRes (pass2 cache threshold ts acc) k = some (some x) := by
  induction ts generalizing acc with
  | nil => exact h
  | cons t rest ih =>
    simp only [pass2, List.foldl_cons]
    by_cases ht : hasMatch acc t = true
    · rw [if_pos ht]
      exact ih _ h
    · rw [if_neg ht]
      by_cases htk : t = k
      · subst htk
        exact absurd (hasMatch_of_lookup h) ht
      · exact ih _ ((lookupRes_setRes_ne _ _ _ _ htk).trans h)


/-! ### Result characterization of updateProjectSurvey -/


lemma updateProjectSurvey_result {σ : Type} (srv : Server σ) (p : SurveyUpdatePayload)
    (s : σ) (r : SurveyUpdateResult) (s' : σ)
    (h : (updateProjectSurvey srv p s).2 = some (r, s')) :
    ∃ d, (srv.fetchDraft (reconPhases srv p s).state).1 = Except.ok d ∧
      r.success = true ∧
      r.selectedCount = (reconPhases srv p s).selectedCount ∧
      r.deselectedCount = (reconPhases srv p s).deselectedCount ∧
      r.targetAnswers = insertionDedup p.answers ∧
      r.errors = (if (reconPhases srv p s).errors.isEmpty then none
                  else some ((reconPhases srv p s).errors)) ∧
      r.missingAnswers = (if (missingOf (insertionDedup p.answers) d).isEmpty then none
                          else some (missingOf (insertionDedup p.answers) d)) := by
  simp only [updateProjectSurvey] at h
  split at h
  · simp at h
  · next finalDraft s₄ heq =>
    refine ⟨finalDraft, by rw [heq], ?_⟩
    split at h
    · split at h
      · simp only [Option.some.injEq, Prod.mk.injEq] at h
        rcases h with ⟨h1, h2⟩
        subst h1
        exact ⟨rfl, rfl, rfl, rfl, rfl, rfl⟩
      · simp only [Option.some.injEq, Prod.mk.injEq] at h
        rcases h with ⟨h1, h2⟩
        subst h1
        exact ⟨rfl, rfl, rfl, rfl, rfl, rfl⟩
    · simp only [Option.some.injEq, Prod.mk.injEq] at h
      rcases h with ⟨h1, h2⟩
      subst h1
      exact ⟨rfl, rfl, rfl, rfl, rfl, rfl⟩

lemma updateProjectSurvey_commit_error {σ : Type} (srv : Server σ)
    (p : SurveyUpdatePayload) (s : σ) (r : SurveyUpdateResult) (s' : σ)
    (msg : String) (s₅ : σ)
    (hc : p.survey_complete = true)
    (h : (updateProjectSurvey srv p s).2 = some (r, s'))
    (hcm : srv.commitDraft ((srv.fetchDraft (reconPhases srv p s).state).2) =
      (Except.error msg, s₅)) :
    r.draftCommitted = false ∧ r.commitError = some msg ∧ s' = s₅ := by
  rcases hf : srv.fetchDraft (reconPhases srv p s).state with ⟨res, s₄⟩
  rw [hf] at hcm
  cases res with
  | error m =>
    simp only [updateProjectSurvey, hf] at h
    simp at h
  | ok d =>
    simp only [updateProjectSurvey, hf] at h
    rw [if_pos hc] at h
    rw [show srv.commitDraft ((Except.ok d, s₄) : Except String SDElementsSurveyDraft × σ).2 =
        (Except.error msg, s₅) from hcm] at h
    simp only [Option.some.injEq, Prod.mk.injEq] at h
    rcases h with ⟨h1, h2⟩
    subst h1
    exact ⟨rfl, rfl, h2.symm⟩

lemma updateProjectSurvey_commit_mem {σ : Type} (srv : Server σ)
    (p : SurveyUpdatePayload) (s : σ) (r : SurveyUpdateResult) (s' : σ)
    (hc : p.survey_complete = true)
    (h : (updateProjectSurvey srv p s).2 = some (r, s')) :
    ApiEvent.commit ∈ (updateProjectSurvey srv p s).1 := by
  rcases hf : srv.fetchDraft (reconPhases srv p s).state with ⟨res, s₄⟩
  cases res with
  | error m =>
    simp only [updateProjectSurvey, hf] at h
    simp at h
  | ok d =>
    simp only [updateProjectSurvey, hf]
    rw [if_pos hc]
    rcases hcm : srv.commitDraft s₄ with ⟨cres, s₅⟩
    cases cres <;> simp [hcm]



/-! ### The claims -/

/-- C9: the bigram-overlap similarity is symmetric and reflexively maximal. -/
theorem c9_similarity_symmetric_reflexive :
    (∀ a b : String, calculateSimilarity a b = calculateSimilarity b a) ∧
    (∀ s : String, calculateSimilarity s s = 1) :=
  ⟨similarity_symm, similarity_refl⟩

/-- C10: whenever reconcile returns without throwing, success is true. -/
theorem c10_success_flag :
    ∀ (σ : Type) (srv : Server σ) (p : SurveyUpdatePayload) (s : σ)
      (r : SurveyUpdateResult) (s' : σ),
      (updateProjectSurvey srv p s).2 = some (r, s') → r.success = true := by
  intro σ srv p s r s' h
  rcases updateProjectSurvey_result srv p s r s' h with ⟨d, _, hs, _⟩
  exact hs

/-- C10 witness: a run with per-item errors and missing answers still reports success. -/
theorem c10_success_flag_witness :
    (updateProjectSurvey plainServer pSelX depDraft).2 = some (rSelX, depDraft) ∧
    rSelX.errors = some ["Failed to select X: invalid answer"] ∧
    rSelX.missingAnswers = some ["X"] ∧
    rSelX.success = true :=
  ⟨by decide, by decide, by decide,
    c10_success_flag _ plainServer pSelX depDraft rSelX depDraft (by decide)⟩

/-- C2 amended: a reconcile call throws exactly when the final verification
fetch fails; a failed per-id refresh records a per-item error and skips
only that id. -/
theorem c2_amended_only_final_fetch_aborts :
    (∀ (σ : Type) (srv : Server σ) (p : SurveyUpdatePayload) (s : σ),
      (updateProjectSurvey srv p s).2 = none ↔
        ∃ msg, (srv.fetchDraft (reconPhases srv p s).state).1 = Except.error msg) ∧
    updateProjectSurvey refreshFlakyServer pXW (0, dXW) =
      ([ApiEvent.fetch, ApiEvent.fetch, ApiEvent.fetch, ApiEvent.patchSel "W" true,
        ApiEvent.fetch],
        some (rRefreshSkip, (4, dXWFinal))) := by
  refine ⟨?_, by decide⟩
  intro σ srv p s
  constructor
  · intro h
    rcases hf : srv.fetchDraft (reconPhases srv p s).state with ⟨res, s₄⟩
    cases res with
    | error m => exact ⟨m, rfl⟩
    | ok d =>
      exfalso
      simp only [updateProjectSurvey, hf] at h
      by_cases hc : p.survey_complete = true
      · rw [if_pos hc] at h
        rcases hcm : srv.commitDraft s₄ with ⟨cres, s₅⟩
        rw [hcm] at h
        cases cres <;> simp at h
      · rw [if_neg hc] at h
        simp at h
  · rintro ⟨msg, hmsg⟩
    rcases hf : srv.fetchDraft (reconPhases srv p s).state with ⟨res, s₄⟩
    rw [hf] at hmsg
    simp only [updateProjectSurvey, hf]
    cases res with
    | ok d => simp at hmsg
    | error m => simp

/-- C2 counterexample: the initial draft fetch fails yet the reconcile call
completes with a result instead of aborting. -/
theorem c2_counterexample_initial_fetch_not_fatal :
    ((flakyFetchServer dZ).fetchDraft 0).1 = Except.error "timeout" ∧
    (updateProjectSurvey (flakyFetchServer dZ) pDeselZ 0).2 = some (rFlaky, 2) :=
  ⟨rfl, by decide⟩

/-- C5: missingAnswers is computed from the final post-loop fetch. -/
theorem c5_missing_from_final_fetch :
    (∀ (σ : Type) (srv : Server σ) (p : SurveyUpdatePayload) (s : σ)
        (r : SurveyUpdateResult) (s' : σ) (d : SDElementsSurveyDraft),
        (updateProjectSurvey srv p s).2 = some (r, s') →
        (srv.fetchDraft (reconPhases srv p s).state).1 = Except.ok d →
        r.missingAnswers.getD [] = missingOf (insertionDedup p.answers) d ∧
        ∀ i ∈ insertionDedup p.answers, (selectedIdsOf d).contains i = false →
          i ∈ r.missingAnswers.getD []) ∧
    ((updateProjectSurvey noopServer pSelX noopDraft).2 = some (rNoop, noopDraft) ∧
      rNoop.selectedCount = 1 ∧ rNoop.missingAnswers = some ["X"]) := by
  constructor
  · intro σ srv p s r s' d h hfd
    rcases updateProjectSurvey_result srv p s r s' h with ⟨d', hfd', _, _, _, _, _, hmiss⟩
    rw [hfd] at hfd'
    cases hfd'
    have hget : r.missingAnswers.getD [] = missingOf (insertionDedup p.answers) d := by
      rw [hmiss]
      by_cases he : (missingOf (insertionDedup p.answers) d).isEmpty = true
      · rw [if_pos he, Option.getD_none]
        exact (List.isEmpty_iff.1 he).symm
      · rw [if_neg he, Option.getD_some]
    refine ⟨hget, ?_⟩
    intro i hi hcon
    rw [hget]
    unfold missingOf
    refine List.mem_filter.2 ⟨hi, ?_⟩
    rw [hcon]
    rfl
  · exact ⟨by decide, by decide, by decide⟩

/-- C5 witness: a silently no-oping mutation still lands the id in missingAnswers. -/
theorem c5_missing_witness :
    (updateProjectSurvey noopServer pSelX noopDraft).2 = some (rNoop, noopDraft) ∧
    (noopServer.fetchDraft (reconPhases noopServer pSelX noopDraft).state).1 =
      Except.ok noopDraft ∧
    (rNoop.missingAnswers.getD [] = missingOf (insertionDedup pSelX.answers) noopDraft ∧
      ∀ i ∈ insertionDedup pSelX.answers, (selectedIdsOf noopDraft).contains i = false →
        i ∈ rNoop.missingAnswers.getD []) :=
  ⟨by decide, rfl,
    c5_missing_from_final_fetch.1 _ noopServer pSelX noopDraft rNoop noopDraft noopDraft
      (by decide) rfl⟩



/-- C6: the dependency resolver scenario. -/
theorem c6_dependency_resolution :
    addAnswerToSurveyDraft (mkServer depRule) "X" true depDraft =
      ([ApiEvent.fetch, ApiEvent.patchSel "Y" true, ApiEvent.fetch,
        ApiEvent.patchSel "X" true],
        some (⟨true, some ["Y"], some "Resolved dependencies"⟩, depFinal)) ∧
    (depDraft.answers.map (fun a => (a.id, a.question, a.selected, a.valid))) =
      [("X", "Q1", false, false), ("Y", "Q1", false, true)] := by decide

/-- C7: the commit gate runs iff requested and its outcome is recorded
independently of the selection phases. -/
theorem c7_commit_gate :
    (∀ (σ : Type) (srv : Server σ) (p : SurveyUpdatePayload) (s : σ)
        (r : SurveyUpdateResult) (s' : σ),
        (updateProjectSurvey srv p s).2 = some (r, s') → p.survey_complete = true →
        ApiEvent.commit ∈ (updateProjectSurvey srv p s).1) ∧
    (∀ (σ : Type) (srv : Server σ) (p : SurveyUpdatePayload) (s : σ)
        (r : SurveyUpdateResult) (s' : σ) (msg : String) (s₅ : σ),
        (updateProjectSurvey srv p s).2 = some (r, s') → p.survey_complete = true →
        srv.commitDraft ((srv.fetchDraft (reconPhases srv p s).state).2) =
          (Except.error msg, s₅) →
        r.draftCommitted = false ∧ r.commitError = some msg ∧ s' = s₅ ∧
        r.selectedCount = (reconPhases srv p s).selectedCount ∧
        r.deselectedCount = (reconPhases srv p s).deselectedCount ∧
        r.errors = (if (reconPhases srv p s).errors.isEmpty then none
                    else some ((reconPhases srv p s).errors))) ∧
    (∀ (σ : Type) (srv : Server σ) (p : SurveyUpdatePayload) (s : σ),
        p.survey_complete = false →
        ApiEvent.commit ∉ (updateProjectSurvey srv p s).1) := by
  refine ⟨?_, ?_, ?_⟩
  · intro σ srv p s r s' h hc
    exact updateProjectSurvey_commit_mem srv p s r s' hc h
  · intro σ srv p s r s' msg s₅ h hc hcm
    rcases updateProjectSurvey_commit_error srv p s r s' msg s₅ hc h hcm with ⟨h1, h2, h3⟩
    rcases updateProjectSurvey_result srv p s r s' h with ⟨d, _, _, hsel, hdesel, _, herr, _⟩
    exact ⟨h1, h2, h3, hsel, hdesel, herr⟩
  · intro σ srv p s hc
    exact updateProjectSurvey_no_commit srv p s hc

/-- C7 witness: a failing commit after a failing selection records both
failures independently. -/
theorem c7_commit_gate_witness :
    (updateProjectSurvey failCommitServer pSelXCommit depDraft).2 =
      some (rFailCommit, depDraft) ∧
    pSelXCommit.survey_complete = true ∧
    (rFailCommit.draftCommitted = false ∧
      rFailCommit.commitError = some "publish failed" ∧
      depDraft = depDraft ∧
      rFailCommit.selectedCount =
        (reconPhases failCommitServer pSelXCommit depDraft).selectedCount ∧
      rFailCommit.deselectedCount =
        (reconPhases failCommitServer pSelXCommit depDraft).deselectedCount ∧
      rFailCommit.errors =
        (if (reconPhases failCommitServer pSelXCommit depDraft).errors.isEmpty then none
         else some ((reconPhases failCommitServer pSelXCommit depDraft).errors))) :=
  ⟨by decide, rfl,
    c7_commit_gate.2.1 _ failCommitServer pSelXCommit depDraft rFailCommit depDraft
      "publish failed" depDraft (by decide) rfl rfl⟩

/-- C8: no mutation is issued for an item whose draft state already matches
the request. -/
theorem c8_no_redundant_mutations :
    (∀ (σ : Type) (srv : Server σ) (i : String) (rest : List String) (s : σ)
        (d : SDElementsSurveyDraft) (s₁ : σ) (a : SDElementsSurveyAnswer),
        srv.fetchDraft s = (Except.ok d, s₁) →
        d.answers.find? (fun x => x.id == i) = some a →
        a.selected = true →
        selectLoop srv (i :: rest) s =
          ⟨(selectLoop srv rest s₁).state, (selectLoop srv rest s₁).count,
            (selectLoop srv rest s₁).errors,
            ApiEvent.fetch :: (selectLoop srv rest s₁).trace⟩) ∧
    (∀ (σ : Type) (srv : Server σ) (d0 : SDElementsSurveyDraft) (i : String)
        (rest : List String) (s : σ),
        d0.answers.find? (fun x => x.id == i && x.selected) = none →
        deselectLoop srv d0 (i :: rest) s = deselectLoop srv d0 rest s) ∧
    (updateProjectSurvey plainServer pSelW wDraft =
      ([ApiEvent.fetch, ApiEvent.fetch, ApiEvent.fetch], some (rSelW, wDraft))) ∧
    (updateProjectSurvey plainServer pDeselZ zDraftUnsel =
      ([ApiEvent.fetch, ApiEvent.fetch], some (rDeselZ, zDraftUnsel))) := by
  refine ⟨?_, ?_, by decide, by decide⟩
  · intro σ srv i rest s d s₁ a hf hfind hsel
    simp only [selectLoop, hf, hfind, hsel]
    simp
  · intro σ srv d0 i rest s hfind
    simp only [deselectLoop, hfind]

/-- C8 witness: re-selecting an already selected answer issues only the
refresh fetch. -/
theorem c8_no_redundant_mutations_witness :
    plainServer.fetchDraft wDraft = (Except.ok wDraft, wDraft) ∧
    wDraft.answers.find? (fun x => x.id == "W") = some ⟨"W", "Q1", true, true⟩ ∧
    (⟨"W", "Q1", true, true⟩ : SDElementsSurveyAnswer).selected = true ∧
    selectLoop plainServer ["W"] wDraft =
      ⟨(selectLoop plainServer [] wDraft).state, (selectLoop plainServer [] wDraft).count,
        (selectLoop plainServer [] wDraft).errors,
        ApiEvent.fetch :: (selectLoop plainServer [] wDraft).trace⟩ :=
  ⟨rfl, by decide, by decide,
    c8_no_redundant_mutations.1 _ plainServer "W" [] wDraft wDraft wDraft
      ⟨"W", "Q1", true, true⟩ rfl (by decide) rfl⟩



/-- C1 counterexample: reconcile never attempts sibling activation. -/
theorem c1_counterexample_no_resolver :
    updateProjectSurvey plainServer pSelX depDraft =
      ([ApiEvent.fetch, ApiEvent.fetch, ApiEvent.patchSel "X" true, ApiEvent.fetch],
        some (rSelX, depDraft)) ∧
    ApiEvent.patchSel "Y" true ∉ (updateProjectSurvey plainServer pSelX depDraft).1 ∧
    ApiEvent.patchSel "Y" false ∉ (updateProjectSurvey plainServer pSelX depDraft).1 ∧
    rSelX.errors = some ["Failed to select X: invalid answer"] ∧
    rSelX.selectedCount = 0 ∧
    rSelX.missingAnswers = some ["X"] ∧
    (depDraft.answers.find? (fun a => a.id == "Y")).map
      (fun a => (a.question, a.valid, a.selected)) = some ("Q1", true, false) ∧
    (depDraft.answers.find? (fun a => a.id == "X")).map
      (fun a => (a.question, a.valid, a.selected)) = some ("Q1", false, false) := by decide

/-- C1 amended: reconcile patches only requested ids, never siblings. -/
theorem c1_amended_direct_selection :
    (∀ (σ : Type) (srv : Server σ) (p : SurveyUpdatePayload) (s : σ)
        (i : String) (b : Bool),
        ApiEvent.patchSel i b ∈ (updateProjectSurvey srv p s).1 →
        i ∈ p.answers ∨ i ∈ p.answers_to_deselect) ∧
    (updateProjectSurvey plainServer pSelX depDraft =
      ([ApiEvent.fetch, ApiEvent.fetch, ApiEvent.patchSel "X" true, ApiEvent.fetch],
        some (rSelX, depDraft))) := by
  refine ⟨?_, by decide⟩
  intro σ srv p s i b h
  exact updateProjectSurvey_patch_frame srv p s i b h

/-- C1 amended witness. -/
theorem c1_amended_witness :
    ApiEvent.patchSel "X" true ∈ (updateProjectSurvey plainServer pSelX depDraft).1 ∧
    ("X" ∈ pSelX.answers ∨ "X" ∈ pSelX.answers_to_deselect) :=
  ⟨by decide, c1_amended_direct_selection.1 _ plainServer pSelX depDraft "X" true (by decide)⟩

/-- C3 counterexample: an earlier substring match pre-empts a later exact
match. -/
theorem c3_counterexample_substring_preempts :
    ((catSubstrFirst.map (fun i => lowerStr i.text)).contains (lowerStr "python") = true) ∧
    matchView (lookupRes (findAnswersByText catSubstrFirst ["python"] threshold75)
        "python") =
      some (some ("A1", "pythonista", "Q", MatchType.substr)) := by decide

/-- C3 amended: a pass-1 match survives the fuzzy pass; the spec scenario
resolves exactly. -/
theorem c3_amended_pass1_dominates_fuzzy :
    (∀ (cache : List LibraryAnswer) (threshold : ℚ) (searchTexts : List String)
        (key : String) (m : AnswerMatch),
        lookupRes (pass1 cache (buildSearchMap searchTexts)) key = some (some m) →
        lookupRes (findAnswersByText cache searchTexts threshold) key = some (some m)) ∧
    lookupRes (findAnswersByText catSpec ["python"] threshold75) "python" =
      some (some ⟨"A1", "Python", "Q", MatchType.exact, 1⟩) := by
  constructor
  · intro cache th ts key m h
    exact pass2_preserves cache th ts _ key m h
  · decide

/-- C3 amended witness. -/
theorem c3_amended_witness :
    lookupRes (pass1 catSpec (buildSearchMap ["python"])) "python" =
      some (some ⟨"A1", "Python", "Q", MatchType.exact, 1⟩) ∧
    lookupRes (findAnswersByText catSpec ["python"] threshold75) "python" =
      some (some ⟨"A1", "Python", "Q", MatchType.exact, 1⟩) :=
  ⟨by decide, c3_amended_pass1_dominates_fuzzy.1 catSpec threshold75 ["python"] "python"
    ⟨"A1", "Python", "Q", MatchType.exact, 1⟩ (by decide)⟩

/-- C4 counterexample: whitespace-insensitive equality resolves as fuzzy,
not exact. -/
theorem c4_counterexample_whitespace_fuzzy :
    normalizeSim "py thon" = normalizeSim "python" ∧
    lowerStr "py thon" ≠ lowerStr "python" ∧
    lookupRes (findAnswersByText catWs ["py thon"] threshold75) "py thon" =
      some (some ⟨"A1", "python", "Q", MatchType.fuzzy, 1⟩) := by decide

/-- C4 amended: whitespace is stripped only inside the fuzzy similarity. -/
theorem c4_amended_whitespace_only_fuzzy :
    (∀ a b : String, normalizeSim a = normalizeSim b → calculateSimilarity a b = 1) ∧
    lowerStr "py thon" ≠ lowerStr "python" ∧
    lookupRes (findAnswersByText catWs ["py thon"] threshold75) "py thon" =
      some (some ⟨"A1", "python", "Q", MatchType.fuzzy, 1⟩) := by
  refine ⟨?_, by decide, by decide⟩
  intro a b h
  unfold calculateSimilarity
  rw [if_pos h]

/-- C4 amended witness. -/
theorem c4_amended_witness :
    normalizeSim "py thon" = normalizeSim "python" ∧
    calculateSimilarity "py thon" "python" = 1 :=
  ⟨by decide, c4_amended_whitespace_only_fuzzy.1 "py thon" "python" (by decide)⟩


end SdeMcp
